import Mathlib

/-!
Verification of the scripting bridge and core-reflection adapter
(`src/core/scripting.c`): segmented address translation in the memory
region adapter, the engine registry's script-load and symbol-lookup
fan-out, the memory-map rebuild lifecycle, and the savestate default
flags.

Machine integers are embedded as `Nat` with explicit reduction modulo
`2^32` wherever the C code's `uint32_t` arithmetic wraps. External
collaborators (the emulated machine's raw accessors, the VFS) are
abstract parameters; the engine registry is observed through the trace
of hook invocations it performs.
-/

namespace Scripting

/-- Reduction of a natural number to the range of a C `uint32_t`. -/
def u32 (n : Nat) : Nat := n % 4294967296

/-- C `uint32_t` subtraction `a - b` with wraparound. -/
def sub32 (a b : Nat) : Nat := (u32 a + (4294967296 - u32 b)) % 4294967296

/-- One `struct mCoreMemoryBlock` descriptor as the adapter copies it:
start address, end address (named `stop`, since `end` is reserved in
Lean), optional segment start (0 meaning absent), and the internal name. -/
structure mCoreMemoryBlock where
  start : Nat
  stop : Nat
  segmentStart : Nat
  internalName : String
deriving DecidableEq

/-- The `segmentStart` local of `CALCULATE_SEGMENT_INFO`:
`adapter->block.segmentStart - adapter->block.start` in `uint32_t`. -/
def prefixSizeOf (b : mCoreMemoryBlock) : Nat := sub32 b.segmentStart b.start

/-- The `segmentSize` local of `CALCULATE_SEGMENT_INFO`:
`end - start`, shrunk by the prefix when `segmentStart` is nonzero. -/
def segmentSizeOf (b : mCoreMemoryBlock) : Nat :=
  let segmentSize := sub32 b.stop b.start
  if b.segmentStart ≠ 0 then sub32 segmentSize (prefixSizeOf b) else segmentSize

/-- The `segment` local of `CALCULATE_SEGMENT_ADDRESS`:
`address / segmentSize`. -/
def segmentOf (b : mCoreMemoryBlock) (address : Nat) : Nat :=
  u32 address / segmentSizeOf b

/-- The `segmentAddress` local of `CALCULATE_SEGMENT_ADDRESS` after both
additions: `address % segmentSize`, plus `block.start`, plus the prefix
size when `block.segmentStart` is nonzero and `segment` is nonzero. -/
def segmentAddressOf (b : mCoreMemoryBlock) (address : Nat) : Nat :=
  let sa := u32 (u32 address % segmentSizeOf b + b.start)
  if b.segmentStart ≠ 0 ∧ segmentOf b address ≠ 0 then u32 (sa + prefixSizeOf b) else sa

/-- The machine collaborator's raw accessors (`struct mCore` is an
external collaborator; only the raw read functions are consumed by the
adapter's read paths). Each takes the physical address and the bank
index. -/
structure mCore where
  rawRead8 : Nat → Nat → Nat
  rawRead16 : Nat → Nat → Nat
  rawRead32 : Nat → Nat → Nat

/-- One `struct mScriptMemoryAdapter`: the machine back-reference and the
copied block descriptor. -/
structure mScriptMemoryAdapter where
  core : mCore
  block : mCoreMemoryBlock

/-- `mScriptMemoryAdapterRead8`: forwards to `rawRead8` at the translated
address with the resolved segment. -/
def mScriptMemoryAdapterRead8 (adapter : mScriptMemoryAdapter) (address : Nat) : Nat :=
  adapter.core.rawRead8 (segmentAddressOf adapter.block address) (segmentOf adapter.block address)

/-- `mScriptMemoryAdapterRead16`: forwards to `rawRead16` at the translated
address with the resolved segment. -/
def mScriptMemoryAdapterRead16 (adapter : mScriptMemoryAdapter) (address : Nat) : Nat :=
  adapter.core.rawRead16 (segmentAddressOf adapter.block address) (segmentOf adapter.block address)

/-- `mScriptMemoryAdapterRead32`: forwards to `rawRead32` at the translated
address with the resolved segment. -/
def mScriptMemoryAdapterRead32 (adapter : mScriptMemoryAdapter) (address : Nat) : Nat :=
  adapter.core.rawRead32 (segmentAddressOf adapter.block address) (segmentOf adapter.block address)

/-- `mScriptMemoryAdapterReadRange`: `length` single-byte reads, the loop
incrementing the `uint32_t` address once per iteration and re-running
`CALCULATE_SEGMENT_ADDRESS` each time. -/
def mScriptMemoryAdapterReadRange (adapter : mScriptMemoryAdapter) (address length : Nat) : List Nat :=
  (List.range length).map fun i =>
    adapter.core.rawRead8 (segmentAddressOf adapter.block (u32 address + i))
      (segmentOf adapter.block (u32 address + i))

/-- The `(address, segment)` argument pair the read paths pass to the
machine's `rawRead` accessors (identical for all three widths). -/
def readRawArgs (b : mCoreMemoryBlock) (address : Nat) : Nat × Nat :=
  (segmentAddressOf b address, segmentOf b address)

/-- The `(address, segment, value)` argument triple `mScriptMemoryAdapterWrite8`
passes to `rawWrite8`: the code passes the incoming `address` in the
address slot and the translated `segmentAddress` in the segment slot
(`adapter->core->rawWrite8(adapter->core, address, segmentAddress, value)`);
the computed `segment` local is unused. -/
def write8RawArgs (b : mCoreMemoryBlock) (address value : Nat) : Nat × Nat × Nat :=
  (u32 address, segmentAddressOf b address, value % 256)

/-- The argument triple `mScriptMemoryAdapterWrite16` passes to `rawWrite16`,
with the same slot assignment as `write8RawArgs` and a `uint16_t` value. -/
def write16RawArgs (b : mCoreMemoryBlock) (address value : Nat) : Nat × Nat × Nat :=
  (u32 address, segmentAddressOf b address, value % 65536)

/-- The argument triple `mScriptMemoryAdapterWrite32` passes to `rawWrite32`,
with the same slot assignment as `write8RawArgs` and a `uint32_t` value. -/
def write32RawArgs (b : mCoreMemoryBlock) (address value : Nat) : Nat × Nat × Nat :=
  (u32 address, segmentAddressOf b address, u32 value)

/-- An unbanked work-RAM-like block used as a concrete test region. -/
def wramBlock : mCoreMemoryBlock := ⟨256, 512, 0, "wram"⟩

/-- The banked cartridge-like block of the spec's worked example:
`start = 0`, `end = 0x4000`, `segmentStart = 0x2000`. -/
def cartBlock : mCoreMemoryBlock := ⟨0, 16384, 8192, "cart0"⟩

/-- A concrete machine whose raw reads encode their arguments, so that
distinct translations give distinct results. -/
def wCore : mCore :=
  ⟨fun a s => a * 10 + s, fun a s => a * 100 + s, fun a s => a * 1000 + s⟩

/-- A concrete adapter over `wCore` and `cartBlock` for witnesses. -/
def wAdapter : mScriptMemoryAdapter := ⟨wCore, cartBlock⟩

/-- One installed `struct mScriptEngine`, reduced to the hooks the bridge
consumes: an identity for trace accounting, and the plugin-contract hooks
`isScript`, `loadScript` and `lookupSymbol` as pure functions of the
script or symbol name (`lookupSymbol` returns the resolved `int32_t`
value on success, per the plugin contract). -/
structure mScriptEngine where
  id : Nat
  isScript : String → Bool
  loadScript : String → Bool
  lookupSymbol : String → Option Int

/-- One observable action of the bridge: an engine-hook invocation or the
closing of the opened script file. -/
inductive BridgeEvent where
  | isScriptCall (id : Nat)
  | loadCall (id : Nat)
  | lookupCall (id : Nat)
  | closeFile
deriving DecidableEq

/-- `HashTableEnumerate(&sb->engines, _seTryLoad, &info)`: the callback
runs for every engine, but once `info.success` is set it does nothing;
otherwise it calls `isScript` and, only when that returns true,
`loadScript`, whose result becomes the new `success`. Returns the final
`success` and the trace of hook invocations. -/
def tryLoadAll (name : String) : List mScriptEngine → Bool → Bool × List BridgeEvent
  | [], success => (success, [])
  | _ :: rest, true => tryLoadAll name rest true
  | se :: rest, false =>
    if se.isScript name then
      let r := tryLoadAll name rest (se.loadScript name)
      (r.1, BridgeEvent.isScriptCall se.id :: BridgeEvent.loadCall se.id :: r.2)
    else
      let r := tryLoadAll name rest false
      (r.1, BridgeEvent.isScriptCall se.id :: r.2)

/-- `mScriptBridgeLoadScript`: opens the resource through the VFS
(abstracted as which paths open), returning false immediately when the
open fails; otherwise enumerates the engines through `tryLoadAll` and
closes the file before returning. -/
def mScriptBridgeLoadScript (vfs : String → Bool) (engines : List mScriptEngine) (name : String) :
    Bool × List BridgeEvent :=
  if vfs name then
    let r := tryLoadAll name engines false
    (r.1, r.2 ++ [BridgeEvent.closeFile])
  else (false, [])

/-- The hook invocations a single non-accepting engine contributes to the
load scan: `isScript` always, and `loadScript` only when `isScript` held. -/
def declineEvents (name : String) (se : mScriptEngine) : List BridgeEvent :=
  if se.isScript name then [BridgeEvent.isScriptCall se.id, BridgeEvent.loadCall se.id]
  else [BridgeEvent.isScriptCall se.id]

/-- `HashTableEnumerate(&sb->engines, _seLookupSymbol, &info)`: the
callback queries each engine until one succeeds; a successful engine
writes its resolved value through `out`; after a success no further
engine is queried. Returns the final `success`, the final `out` value,
and the trace of hook invocations. -/
def lookupAll (name : String) : List mScriptEngine → Bool → Int → Bool × Int × List BridgeEvent
  | [], success, out => (success, out, [])
  | _ :: rest, true, out => lookupAll name rest true out
  | se :: rest, false, out =>
    match se.lookupSymbol name with
    | some v =>
      let r := lookupAll name rest true v
      (r.1, r.2.1, BridgeEvent.lookupCall se.id :: r.2.2)
    | none =>
      let r := lookupAll name rest false out
      (r.1, r.2.1, BridgeEvent.lookupCall se.id :: r.2.2)

/-- `mScriptBridgeLookupSymbol`: enumerates the engines with an initial
`success = false` and the caller's current `out` value. -/
def mScriptBridgeLookupSymbol (engines : List mScriptEngine) (name : String) (out0 : Int) :
    Bool × Int × List BridgeEvent :=
  lookupAll name engines false out0

/-- A spy engine that declines every script and resolves no symbol. -/
def wEngineA : mScriptEngine := ⟨1, fun _ => false, fun _ => false, fun _ => none⟩

/-- A spy engine that accepts every script and resolves every symbol to 7. -/
def wEngineB : mScriptEngine := ⟨2, fun _ => true, fun _ => true, fun _ => some 7⟩

/-- A spy engine that accepts every script and resolves every symbol to 9,
used to observe that it is never queried after a prior success. -/
def wEngineC : mScriptEngine := ⟨3, fun _ => true, fun _ => true, fun _ => some 9⟩

/-- A VFS on which every path opens. -/
def wVfs : String → Bool := fun _ => true

/-- Modelled from the spec: the script-value arena backing weak
references. `mScriptContextMakeWeakref`, `mScriptContextClearWeakref` and
`mScriptContextAccessWeakref` live in the script context, outside this
excerpt; per the spec a weak reference is a non-owning handle into the
arena, and dereferencing after its referent is cleared yields absent.
Region-adapter referents are identified by their copied block
descriptor. -/
structure WeakrefContext where
  nextId : Nat
  arena : List (Nat × mCoreMemoryBlock)

/-- Modelled from the spec: issue a fresh weak reference to a value,
returning the updated arena and the new handle. -/
def mScriptContextMakeWeakref (ctx : WeakrefContext) (b : mCoreMemoryBlock) : WeakrefContext × Nat :=
  (⟨ctx.nextId + 1, (ctx.nextId, b) :: ctx.arena⟩, ctx.nextId)

/-- Modelled from the spec: sever a weak reference from its referent, so
that dereferencing it afterwards yields absent. -/
def mScriptContextClearWeakref (ctx : WeakrefContext) (id : Nat) : WeakrefContext :=
  ⟨ctx.nextId, ctx.arena.filter fun p => !(p.1 == id)⟩

/-- Modelled from the spec: dereference a weak reference, yielding absent
once the referent has been cleared. -/
def mScriptContextAccessWeakref (ctx : WeakrefContext) (id : Nat) : Option mCoreMemoryBlock :=
  (ctx.arena.find? fun p => p.1 == id).map Prod.snd

/-- `_clearMemoryMap` with `clear = true`: iterates the memory-map
entries, severing each entry's weak reference; the table itself is then
emptied (the caller continues with an empty map). -/
def clearMemoryMap (ctx : WeakrefContext) (memory : List (String × Nat)) : WeakrefContext :=
  memory.foldl (fun c entry => mScriptContextClearWeakref c entry.2) ctx

/-- The insertion loop of `_rebuildMemoryMap`: one fresh region adapter
per descriptor in the machine's block list, keyed by the descriptor's
internal name and stored behind a fresh weak reference. -/
def insertBlocks (ctx : WeakrefContext) (blocks : List mCoreMemoryBlock) :
    WeakrefContext × List (String × Nat) :=
  match blocks with
  | [] => (ctx, [])
  | b :: rest =>
    let mk := mScriptContextMakeWeakref ctx b
    let r := insertBlocks mk.1 rest
    (r.1, (b.internalName, mk.2) :: r.2)

/-- `_rebuildMemoryMap`: clears the existing map with invalidation, then
inserts one fresh entry per current block descriptor. -/
def rebuildMemoryMap (ctx : WeakrefContext) (memory : List (String × Nat))
    (blocks : List mCoreMemoryBlock) : WeakrefContext × List (String × Nat) :=
  insertBlocks (clearMemoryMap ctx memory) blocks

/-- Modelled from the spec: the `SAVESTATE_SCREENSHOT` section flag of
`serialize.h`, which is outside this excerpt. -/
def SAVESTATE_SCREENSHOT : Nat := 1

/-- Modelled from the spec: the `SAVESTATE_SAVEDATA` section flag — the
persistent game save data section. -/
def SAVESTATE_SAVEDATA : Nat := 2

/-- Modelled from the spec: the `SAVESTATE_CHEATS` section flag. -/
def SAVESTATE_CHEATS : Nat := 4

/-- Modelled from the spec: the `SAVESTATE_RTC` section flag. -/
def SAVESTATE_RTC : Nat := 8

/-- Modelled from the spec: the `SAVESTATE_METADATA` section flag. -/
def SAVESTATE_METADATA : Nat := 16

/-- The individual savestate section flags. -/
def savestateSections : List Nat :=
  [SAVESTATE_SCREENSHOT, SAVESTATE_SAVEDATA, SAVESTATE_CHEATS, SAVESTATE_RTC, SAVESTATE_METADATA]

/-- Bitwise or over the low `w` bits, by structural recursion so that it
evaluates in the kernel. -/
def orPow : Nat → Nat → Nat → Nat
  | 0, _, _ => 0
  | w+1, a, b => max (a % 2) (b % 2) + 2 * orPow w (a / 2) (b / 2)

/-- Bitwise and over the low `w` bits, by structural recursion so that it
evaluates in the kernel. -/
def andPow : Nat → Nat → Nat → Nat
  | 0, _, _ => 0
  | w+1, a, b => min (a % 2) (b % 2) + 2 * andPow w (a / 2) (b / 2)

/-- Bitwise complement over the low `w` bits, by structural recursion so
that it evaluates in the kernel. -/
def notPow : Nat → Nat → Nat
  | 0, _ => 0
  | w+1, a => (1 - a % 2) + 2 * notPow w (a / 2)

/-- C 32-bit `|` on the flag words. -/
def or32 (a b : Nat) : Nat := orPow 32 a b

/-- C 32-bit `&` on the flag words. -/
def and32 (a b : Nat) : Nat := andPow 32 a b

/-- C 32-bit `~` on the flag words. -/
def not32 (a : Nat) : Nat := notPow 32 a

/-- Modelled from the spec: `SAVESTATE_ALL` of `serialize.h`, the union
of every section flag. -/
def SAVESTATE_ALL : Nat :=
  or32 (or32 (or32 (or32 SAVESTATE_SCREENSHOT SAVESTATE_SAVEDATA) SAVESTATE_CHEATS) SAVESTATE_RTC) SAVESTATE_METADATA

/-- The default `flags` binding of `saveStateSlot`:
`mSCRIPT_MAKE_S32(SAVESTATE_ALL)`. -/
def saveStateSlotDefaultFlags : Nat := SAVESTATE_ALL

/-- The default `flags` binding of `loadStateSlot`:
`mSCRIPT_MAKE_S32(SAVESTATE_ALL & ~SAVESTATE_SAVEDATA)`. -/
def loadStateSlotDefaultFlags : Nat := and32 SAVESTATE_ALL (not32 SAVESTATE_SAVEDATA)

/-- Helper: the translation locals depend on the address argument only
through its `uint32_t` reduction. -/
lemma segment_u32_congr (b : mCoreMemoryBlock) (x y : Nat) (h : u32 x = u32 y) :
    segmentAddressOf b x = segmentAddressOf b y ∧ segmentOf b x = segmentOf b y := by
  constructor
  · simp only [segmentAddressOf, segmentOf, h]
  · simp only [segmentOf, h]

/-- Helper: `uint32_t` increment inside the `readRange` loop commutes with
the entry reduction of the address. -/
lemma u32_add_mod (a i : Nat) : u32 (u32 a + i) = u32 (a + i) := by
  simp only [u32]; omega

/-- Helper: once `success` is set, the load scan performs no further hook
invocation. -/
lemma tryLoadAll_true (name : String) (engines : List mScriptEngine) :
    tryLoadAll name engines true = (true, []) := by
  induction engines with
  | nil => rfl
  | cons se rest ih => simpa [tryLoadAll] using ih

/-- Helper: the load scan succeeds exactly when some engine both
identifies the script and loads it. -/
lemma tryLoadAll_any (name : String) (engines : List mScriptEngine) :
    (tryLoadAll name engines false).1 =
      engines.any fun se => se.isScript name && se.loadScript name := by
  induction engines with
  | nil => rfl
  | cons se rest ih =>
    by_cases h : se.isScript name
    · cases hl : se.loadScript name
      · simp [tryLoadAll, h, hl, ih]
      · simp [tryLoadAll, h, hl, tryLoadAll_true]
    · simp [tryLoadAll, h, ih]

/-- Helper: the engine scan itself never emits the close event. -/
lemma tryLoadAll_closeFile_not_mem (name : String) (engines : List mScriptEngine) (s : Bool) :
    BridgeEvent.closeFile ∉ (tryLoadAll name engines s).2 := by
  induction engines generalizing s with
  | nil => cases s <;> simp [tryLoadAll]
  | cons se rest ih =>
    cases s
    · by_cases h : se.isScript name <;> simp [tryLoadAll, h, ih]
    · simpa [tryLoadAll] using ih true

/-- Helper: when a prefix of engines declines and the next engine accepts,
the scan returns true and its trace ends at the accepting engine. -/
lemma tryLoadAll_first_accept (name : String) (l₁ : List mScriptEngine) (se : mScriptEngine)
    (l₂ : List mScriptEngine)
    (hdecl : ∀ e ∈ l₁, (e.isScript name && e.loadScript name) = false)
    (his : se.isScript name = true) (hld : se.loadScript name = true) :
    tryLoadAll name (l₁ ++ se :: l₂) false =
      (true, l₁.flatMap (declineEvents name) ++
        [BridgeEvent.isScriptCall se.id, BridgeEvent.loadCall se.id]) := by
  induction l₁ with
  | nil => simp [tryLoadAll, his, hld, tryLoadAll_true]
  | cons e l ih =>
    have he := hdecl e (by simp)
    have ih2 := ih fun x hx => hdecl x (by simp [hx])
    by_cases h : e.isScript name
    · have hl : e.loadScript name = false := by
        cases hl2 : e.loadScript name
        · rfl
        · simp [h, hl2] at he
      simp [tryLoadAll, h, hl, ih2, declineEvents]
    · simp [tryLoadAll, h, ih2, declineEvents]

/-- Helper: a `loadScript` invocation in the trace always belongs to an
engine that identified the script. -/
lemma tryLoadAll_loadCall_mem (name : String) (engines : List mScriptEngine) (s : Bool) (k : Nat) :
    BridgeEvent.loadCall k ∈ (tryLoadAll name engines s).2 →
      ∃ e ∈ engines, e.id = k ∧ e.isScript name = true := by
  induction engines generalizing s with
  | nil => cases s <;> simp [tryLoadAll]
  | cons se rest ih =>
    cases s
    · by_cases h : se.isScript name
      · intro hmem
        simp only [tryLoadAll, h, if_true, List.mem_cons] at hmem
        rcases hmem with h1 | h1 | h1
        · simp at h1
        · simp only [BridgeEvent.loadCall.injEq] at h1
          exact ⟨se, by simp, h1.symm, h⟩
        · rcases ih _ h1 with ⟨e, he, hk, hi⟩
          exact ⟨e, by simp [he], hk, hi⟩
      · intro hmem
        simp only [tryLoadAll, h, if_false] at hmem
        rcases List.mem_cons.mp hmem with h1 | h1
        · simp at h1
        · rcases ih _ h1 with ⟨e, he, hk, hi⟩
          exact ⟨e, by simp [he], hk, hi⟩
    · intro hmem
      simp only [tryLoadAll] at hmem
      rcases ih _ hmem with ⟨e, he, hk, hi⟩
      exact ⟨e, by simp [he], hk, hi⟩

/-- Helper: `List.any` is invariant under permutation of the list. -/
lemma perm_any (l₁ l₂ : List mScriptEngine) (p : mScriptEngine → Bool) (h : List.Perm l₁ l₂) :
    l₁.any p = l₂.any p := by
  induction h with
  | nil => rfl
  | cons x _ ih => simp [ih]
  | swap x y l => simp [Bool.or_left_comm]
  | trans _ _ ih1 ih2 => rw [ih1, ih2]

/-- Helper: once `success` is set, the symbol scan performs no further
hook invocation and leaves `out` untouched. -/
lemma lookupAll_true (name : String) (engines : List mScriptEngine) (out : Int) :
    lookupAll name engines true out = (true, out, []) := by
  induction engines with
  | nil => rfl
  | cons se rest ih => simpa [lookupAll] using ih

/-- Helper: the symbol scan succeeds exactly when some engine resolves
the name. -/
lemma lookupAll_any (name : String) (engines : List mScriptEngine) (out : Int) :
    (lookupAll name engines false out).1 =
      engines.any fun se => (se.lookupSymbol name).isSome := by
  induction engines generalizing out with
  | nil => rfl
  | cons se rest ih =>
    cases h : se.lookupSymbol name with
    | some v => simp [lookupAll, h, lookupAll_true]
    | none => simp [lookupAll, h, ih]

/-- Helper: a failed symbol scan leaves the caller's `out` value
unchanged. -/
lemma lookupAll_none_out (name : String) (engines : List mScriptEngine) (out : Int)
    (h : (lookupAll name engines false out).1 = false) :
    (lookupAll name engines false out).2.1 = out := by
  induction engines generalizing out with
  | nil => rfl
  | cons se rest ih =>
    cases hs : se.lookupSymbol name with
    | some v =>
      exfalso
      simp [lookupAll, hs, lookupAll_true] at h
    | none =>
      simp only [lookupAll, hs] at h ⊢
      exact ih out h

/-- Helper: when a prefix of engines resolves nothing and the next engine
resolves `v`, the scan returns `(true, v)` and its trace ends at that
engine. -/
lemma lookupAll_first_success (name : String) (l₁ : List mScriptEngine) (se : mScriptEngine)
    (l₂ : List mScriptEngine) (out : Int) (v : Int)
    (hnone : ∀ e ∈ l₁, e.lookupSymbol name = none)
    (hv : se.lookupSymbol name = some v) :
    lookupAll name (l₁ ++ se :: l₂) false out =
      (true, v, l₁.map (fun e => BridgeEvent.lookupCall e.id) ++ [BridgeEvent.lookupCall se.id]) := by
  induction l₁ generalizing out with
  | nil => simp [lookupAll, hv, lookupAll_true]
  | cons e l ih =>
    have he := hnone e (by simp)
    have ih2 := ih out fun x hx => hnone x (by simp [hx])
    simp [lookupAll, he, ih2]

/-- Helper: a dereference yields absent exactly when no arena entry
carries the handle. -/
lemma access_eq_none_iff (ctx : WeakrefContext) (id : Nat) :
    mScriptContextAccessWeakref ctx id = none ↔ ∀ p ∈ ctx.arena, p.1 ≠ id := by
  simp [mScriptContextAccessWeakref, List.find?_eq_none]

/-- Helper: clearing a weak reference makes its dereference absent. -/
lemma access_clearWeakref_self (ctx : WeakrefContext) (id : Nat) :
    mScriptContextAccessWeakref (mScriptContextClearWeakref ctx id) id = none := by
  rw [access_eq_none_iff]
  intro p hp
  have := List.of_mem_filter hp
  simpa using this

/-- Helper: clearing one weak reference never resurrects another. -/
lemma access_clearWeakref_none (ctx : WeakrefContext) (i j : Nat)
    (h : mScriptContextAccessWeakref ctx i = none) :
    mScriptContextAccessWeakref (mScriptContextClearWeakref ctx j) i = none := by
  rw [access_eq_none_iff] at h ⊢
  intro p hp
  exact h p (List.mem_of_mem_filter hp)

/-- Helper: clearing the map does not advance the fresh-handle counter. -/
lemma clearMemoryMap_nextId (ctx : WeakrefContext) (memory : List (String × Nat)) :
    (clearMemoryMap ctx memory).nextId = ctx.nextId := by
  induction memory generalizing ctx with
  | nil => rfl
  | cons e rest ih =>
    simpa [clearMemoryMap, List.foldl_cons] using ih (mScriptContextClearWeakref ctx e.2)

/-- Helper: clearing the map never resurrects an absent dereference. -/
lemma clearMemoryMap_preserves_none (ctx : WeakrefContext) (memory : List (String × Nat)) (i : Nat)
    (h : mScriptContextAccessWeakref ctx i = none) :
    mScriptContextAccessWeakref (clearMemoryMap ctx memory) i = none := by
  induction memory generalizing ctx with
  | nil => exact h
  | cons e rest ih =>
    exact ih (mScriptContextClearWeakref ctx e.2) (access_clearWeakref_none ctx i e.2 h)

/-- Helper: after clearing the map, every weak reference that was stored
in it dereferences to absent. -/
lemma clearMemoryMap_clears (ctx : WeakrefContext) (memory : List (String × Nat))
    (entry : String × Nat) (h : entry ∈ memory) :
    mScriptContextAccessWeakref (clearMemoryMap ctx memory) entry.2 = none := by
  induction memory generalizing ctx with
  | nil => cases h
  | cons e rest ih =>
    rcases List.mem_cons.mp h with he | he
    · subst he
      exact clearMemoryMap_preserves_none _ rest entry.2 (access_clearWeakref_self ctx entry.2)
    · exact ih (mScriptContextClearWeakref ctx e.2) he

/-- Helper: the rebuild insertion loop only advances the fresh-handle
counter. -/
lemma insertBlocks_nextId_le (ctx : WeakrefContext) (blocks : List mCoreMemoryBlock) :
    ctx.nextId ≤ (insertBlocks ctx blocks).1.nextId := by
  induction blocks generalizing ctx with
  | nil => exact Nat.le_refl _
  | cons b rest ih =>
    have h := ih (mScriptContextMakeWeakref ctx b).1
    simp only [insertBlocks]
    simp only [mScriptContextMakeWeakref] at h ⊢
    omega

/-- Helper: inserting fresh entries does not change the dereference of
any handle older than the counter. -/
lemma insertBlocks_access_lt (ctx : WeakrefContext) (blocks : List mCoreMemoryBlock) (i : Nat)
    (h : i < ctx.nextId) :
    mScriptContextAccessWeakref (insertBlocks ctx blocks).1 i = mScriptContextAccessWeakref ctx i := by
  induction blocks generalizing ctx with
  | nil => rfl
  | cons b rest ih =>
    have h2 : i < (mScriptContextMakeWeakref ctx b).1.nextId := by
      simp only [mScriptContextMakeWeakref]
      omega
    have := ih (mScriptContextMakeWeakref ctx b).1 h2
    simp only [insertBlocks, this]
    simp only [mScriptContextAccessWeakref, mScriptContextMakeWeakref, List.find?]
    have hne : (ctx.nextId == i) = false := by
      simp only [beq_eq_false_iff_ne]
      omega
    simp [hne]

/-- Helper: the rebuilt map is keyed by the descriptors' internal names,
in block-list order. -/
lemma insertBlocks_keys (ctx : WeakrefContext) (blocks : List mCoreMemoryBlock) :
    (insertBlocks ctx blocks).2.map Prod.fst = blocks.map mCoreMemoryBlock.internalName := by
  induction blocks generalizing ctx with
  | nil => rfl
  | cons b rest ih => simp [insertBlocks, ih]

/-- Helper: each rebuilt entry holds a fresh weak reference that
dereferences to its own descriptor's adapter. -/
lemma insertBlocks_fresh (ctx : WeakrefContext) (blocks : List mCoreMemoryBlock) :
    List.Forall₂ (fun b p => p.1 = b.internalName ∧
      mScriptContextAccessWeakref (insertBlocks ctx blocks).1 p.2 = some b ∧ ctx.nextId ≤ p.2)
      blocks (insertBlocks ctx blocks).2 := by
  induction blocks generalizing ctx with
  | nil => exact List.Forall₂.nil
  | cons b rest ih =>
    refine List.Forall₂.cons ⟨rfl, ?_, Nat.le_refl _⟩ ?_
    · have h2 : ctx.nextId < (mScriptContextMakeWeakref ctx b).1.nextId := by
        simp only [mScriptContextMakeWeakref]
        omega
      have h3 := insertBlocks_access_lt (mScriptContextMakeWeakref ctx b).1 rest ctx.nextId h2
      have h4 : mScriptContextAccessWeakref (mScriptContextMakeWeakref ctx b).1 ctx.nextId = some b := by
        simp only [mScriptContextAccessWeakref, mScriptContextMakeWeakref, List.find?]
        simp
      exact h3.trans h4
    · refine (ih (mScriptContextMakeWeakref ctx b).1).imp ?_
      intro x y hy
      refine ⟨hy.1, hy.2.1, ?_⟩
      have hle : ctx.nextId ≤ (mScriptContextMakeWeakref ctx b).1.nextId := by
        simp only [mScriptContextMakeWeakref]
        omega
      exact Nat.le_trans hle hy.2.2

/-- Claim C1: at the failing input (unbanked region `[0x100, 0x200)`,
offset 5) the read path passes `rawRead8` the translated pair
`(0x105, 0)`, but the write paths pass the raw write accessor the
untranslated offset 5 in the address slot and the translated address
`0x105` in the segment slot, for every width — not the
`(0x105, 0, value)` the claim describes. -/
theorem C1_write_forwarding_mismatch :
    readRawArgs wramBlock 5 = (261, 0) ∧
    write8RawArgs wramBlock 5 171 = (5, 261, 171) ∧
    write16RawArgs wramBlock 5 43981 = (5, 261, 43981) ∧
    write32RawArgs wramBlock 5 3735928559 = (5, 261, 3735928559) ∧
    write8RawArgs wramBlock 5 171 ≠ ((readRawArgs wramBlock 5).1, (readRawArgs wramBlock 5).2, 171) := by
  refine ⟨by decide, by decide, by decide, by decide, by decide⟩

/-- Claim C2 counterexample: for the spec's banked example region
(`start = 0`, `end = 0x4000`, `segmentStart = 0x2000`), a read at adapter
offset `0x2000` translates to physical `0x2000`, not `0x4000` as
claimed. -/
theorem C2_counterexample :
    segmentAddressOf cartBlock 8192 ≠ 16384 := by decide

/-- Claim C2 as amended: `segmentSize = 0x2000`; offset `0x2000` resolves
to segment 1 and translates to physical `0x2000`; offset 0 resolves to
segment 0 and translates to physical 0. -/
theorem C2_banked_example :
    segmentSizeOf cartBlock = 8192 ∧
    segmentAddressOf cartBlock 8192 = 8192 ∧ segmentOf cartBlock 8192 = 1 ∧
    segmentAddressOf cartBlock 0 = 0 ∧ segmentOf cartBlock 0 = 0 := by decide

/-- Claim C3 counterexample: for an unbanked region `[0, 0x100)` the
adapter offset `0x100` resolves to segment 1, not 0, and its translation
is not `start + address`. -/
theorem C3_counterexample :
    segmentOf ⟨0, 256, 0, "wram0"⟩ 256 ≠ 0 ∧
    segmentAddressOf ⟨0, 256, 0, "wram0"⟩ 256 ≠ 0 + 256 := by decide

/-- Claim C3 as amended: for every region without a `segmentStart` and
every adapter offset smaller than `end - start`, translation is the
identity offset plus the region's start and the resolved segment is 0. -/
theorem C3_unbanked_translation (b : mCoreMemoryBlock) (address : Nat)
    (hseg : b.segmentStart = 0) (hse : b.start ≤ b.stop) (hs2 : b.stop < 4294967296)
    (ha : address < b.stop - b.start) :
    segmentAddressOf b address = b.start + address ∧ segmentOf b address = 0 := by
  have hsz : segmentSizeOf b = b.stop - b.start := by
    simp only [segmentSizeOf, sub32, u32, hseg]
    simp
    omega
  have hu : u32 address = address := by simp only [u32]; omega
  have hmod : u32 address % segmentSizeOf b = address := by
    rw [hu, hsz]; exact Nat.mod_eq_of_lt ha
  have hdiv : segmentOf b address = 0 := by
    simp only [segmentOf, hu, hsz]; exact Nat.div_eq_of_lt ha
  refine ⟨?_, hdiv⟩
  simp only [segmentAddressOf, hseg, hmod]
  simp only [ne_eq, not_true_eq_false, false_and, if_false, u32]
  omega

/-- Claim C3 witness: the amended statement applied to the concrete
unbanked region `[0x100, 0x200)` at offset 7. -/
theorem C3_unbanked_translation_witness :
    segmentAddressOf wramBlock 7 = 256 + 7 ∧ segmentOf wramBlock 7 = 0 :=
  C3_unbanked_translation wramBlock 7 (by decide) (by decide) (by decide) (by decide)

/-- Claim C4: rebuilding the memory map yields one fresh entry per
descriptor, keyed by the descriptor's internal name, whose fresh weak
reference dereferences to that descriptor's adapter; and every weak
reference stored in the map before the rebuild dereferences to absent
afterwards, even when its name key exists again in the new map. -/
theorem C4_rebuild_invalidates (ctx : WeakrefContext) (memory : List (String × Nat))
    (blocks : List mCoreMemoryBlock)
    (hwf : ∀ entry ∈ memory, entry.2 < ctx.nextId) :
    ((rebuildMemoryMap ctx memory blocks).2.map Prod.fst = blocks.map mCoreMemoryBlock.internalName) ∧
    List.Forall₂ (fun b p => p.1 = b.internalName ∧
      mScriptContextAccessWeakref (rebuildMemoryMap ctx memory blocks).1 p.2 = some b)
      blocks (rebuildMemoryMap ctx memory blocks).2 ∧
    (∀ entry ∈ memory,
      mScriptContextAccessWeakref (rebuildMemoryMap ctx memory blocks).1 entry.2 = none) := by
  refine ⟨insertBlocks_keys _ blocks, ?_, ?_⟩
  · exact (insertBlocks_fresh (clearMemoryMap ctx memory) blocks).imp fun x y hy => ⟨hy.1, hy.2.1⟩
  · intro entry hmem
    have hcl := clearMemoryMap_clears ctx memory entry hmem
    have hlt : entry.2 < (clearMemoryMap ctx memory).nextId := by
      rw [clearMemoryMap_nextId]
      exact hwf entry hmem
    rw [rebuildMemoryMap, insertBlocks_access_lt _ blocks entry.2 hlt]
    exact hcl

/-- Claim C4 witness: a concrete arena with two issued weak references is
rebuilt against a one-block list whose name key ("wram") already existed;
both old handles resolve to absent afterwards. -/
theorem C4_rebuild_invalidates_witness :
    ((rebuildMemoryMap ⟨3, [(0, cartBlock), (2, wramBlock)]⟩ [("cart0", 0), ("wram", 2)]
      [wramBlock]).2.map Prod.fst = [wramBlock].map mCoreMemoryBlock.internalName) ∧
    List.Forall₂ (fun b p => p.1 = b.internalName ∧
      mScriptContextAccessWeakref (rebuildMemoryMap ⟨3, [(0, cartBlock), (2, wramBlock)]⟩
        [("cart0", 0), ("wram", 2)] [wramBlock]).1 p.2 = some b)
      [wramBlock] (rebuildMemoryMap ⟨3, [(0, cartBlock), (2, wramBlock)]⟩
        [("cart0", 0), ("wram", 2)] [wramBlock]).2 ∧
    (∀ entry ∈ [("cart0", 0), ("wram", (2 : Nat))],
      mScriptContextAccessWeakref (rebuildMemoryMap ⟨3, [(0, cartBlock), (2, wramBlock)]⟩
        [("cart0", 0), ("wram", 2)] [wramBlock]).1 entry.2 = none) :=
  C4_rebuild_invalidates ⟨3, [(0, cartBlock), (2, wramBlock)]⟩ [("cart0", 0), ("wram", 2)]
    [wramBlock] (by decide)

/-- Claim C5: when the resource cannot be opened, `loadScript` returns
failure immediately with no engine hook invoked; when it opens, the
handle is closed exactly once, as the last action before returning, on
both outcomes. -/
theorem C5_load_open_failure (vfs : String → Bool) (engines : List mScriptEngine) (name : String) :
    (vfs name = false → mScriptBridgeLoadScript vfs engines name = (false, [])) ∧
    (vfs name = true → ∃ evs,
      (mScriptBridgeLoadScript vfs engines name).2 = evs ++ [BridgeEvent.closeFile] ∧
      BridgeEvent.closeFile ∉ evs) := by
  constructor
  · intro h
    simp [mScriptBridgeLoadScript, h]
  · intro h
    exact ⟨(tryLoadAll name engines false).2, by simp [mScriptBridgeLoadScript, h],
      tryLoadAll_closeFile_not_mem name engines false⟩

/-- Claim C5 witness: both branches at concrete inputs — a path that
fails to open, and a path that opens with no engine installed. -/
theorem C5_load_open_failure_witness :
    mScriptBridgeLoadScript (fun _ => false) [] "s" = (false, []) ∧
    ∃ evs, (mScriptBridgeLoadScript (fun _ => true) [] "s").2 = evs ++ [BridgeEvent.closeFile] ∧
      BridgeEvent.closeFile ∉ evs :=
  ⟨(C5_load_open_failure (fun _ => false) [] "s").1 rfl,
   (C5_load_open_failure (fun _ => true) [] "s").2 rfl⟩

/-- Claim C6: for an openable script, `loadScript` succeeds exactly when
some engine both identifies and loads it; the scan stops at the first
accepting engine (its trace ends there, so no later engine is offered
the script); an engine with `isScript` false never receives a
`loadScript` call; and the result is invariant under permuting the
engines. -/
theorem C6_load_scan (vfs : String → Bool) (engines : List mScriptEngine) (name : String)
    (hopen : vfs name = true) :
    ((mScriptBridgeLoadScript vfs engines name).1 =
      engines.any fun se => se.isScript name && se.loadScript name) ∧
    (∀ l₁ se l₂, engines = l₁ ++ se :: l₂ →
      (∀ e ∈ l₁, (e.isScript name && e.loadScript name) = false) →
      se.isScript name = true → se.loadScript name = true →
      mScriptBridgeLoadScript vfs engines name =
        (true, l₁.flatMap (declineEvents name) ++
          [BridgeEvent.isScriptCall se.id, BridgeEvent.loadCall se.id, BridgeEvent.closeFile])) ∧
    ((engines.map (fun se => se.id)).Nodup → ∀ e ∈ engines, e.isScript name = false →
      BridgeEvent.loadCall e.id ∉ (mScriptBridgeLoadScript vfs engines name).2) ∧
    (∀ engines2, List.Perm engines2 engines →
      (mScriptBridgeLoadScript vfs engines2 name).1 = (mScriptBridgeLoadScript vfs engines name).1) := by
  refine ⟨?_, ?_, ?_, ?_⟩
  · simp [mScriptBridgeLoadScript, hopen, tryLoadAll_any]
  · intro l₁ se l₂ he hdecl his hld
    subst he
    simp [mScriptBridgeLoadScript, hopen, tryLoadAll_first_accept name l₁ se l₂ hdecl his hld]
  · intro hnd e he his hmem
    simp only [mScriptBridgeLoadScript, hopen, if_true, List.mem_append] at hmem
    rcases hmem with hmem | hmem
    · rcases tryLoadAll_loadCall_mem name engines false e.id hmem with ⟨e2, he2, hid, his2⟩
      have he2e : e2 = e := List.inj_on_of_nodup_map hnd he2 he hid
      rw [he2e] at his2
      rw [his2] at his
      exact Bool.noConfusion his
    · simp at hmem
  · intro engines2 hperm
    simp [mScriptBridgeLoadScript, hopen, tryLoadAll_any]
    exact perm_any engines2 engines _ hperm

/-- Claim C6 witness: a declining engine followed by an accepting one —
the load succeeds, the trace stops at the accepting engine, the
declining engine is never asked to load, and swapping registration order
preserves the result. -/
theorem C6_load_scan_witness :
    ((mScriptBridgeLoadScript wVfs [wEngineA, wEngineB] "s").1 =
      [wEngineA, wEngineB].any fun se => se.isScript "s" && se.loadScript "s") ∧
    mScriptBridgeLoadScript wVfs [wEngineA, wEngineB] "s" =
      (true, [wEngineA].flatMap (declineEvents "s") ++
        [BridgeEvent.isScriptCall wEngineB.id, BridgeEvent.loadCall wEngineB.id, BridgeEvent.closeFile]) ∧
    BridgeEvent.loadCall wEngineA.id ∉ (mScriptBridgeLoadScript wVfs [wEngineA, wEngineB] "s").2 ∧
    (mScriptBridgeLoadScript wVfs [wEngineB, wEngineA] "s").1 =
      (mScriptBridgeLoadScript wVfs [wEngineA, wEngineB] "s").1 := by
  have h := C6_load_scan wVfs [wEngineA, wEngineB] "s" rfl
  refine ⟨h.1, ?_, ?_, ?_⟩
  · exact h.2.1 [wEngineA] wEngineB []
      rfl (by intro e he; simp only [List.mem_singleton] at he; subst he; rfl) rfl rfl
  · exact h.2.2.1 (by decide) wEngineA (List.mem_cons_self wEngineA _) rfl
  · exact h.2.2.2 [wEngineB, wEngineA] (List.Perm.swap wEngineA wEngineB [])

/-- Claim C7: `lookupSymbol` succeeds exactly when some engine resolves
the name; the scan stops at the first resolving engine, whose value is
what ends up in `out` (its trace ends there, so no engine is queried
after a prior success); and a failed lookup leaves the caller's `out`
untouched. -/
theorem C7_lookup_first_success (engines : List mScriptEngine) (name : String) (out0 : Int) :
    ((mScriptBridgeLookupSymbol engines name out0).1 =
      engines.any fun se => (se.lookupSymbol name).isSome) ∧
    (∀ l₁ se l₂ v, engines = l₁ ++ se :: l₂ →
      (∀ e ∈ l₁, e.lookupSymbol name = none) →
      se.lookupSymbol name = some v →
      mScriptBridgeLookupSymbol engines name out0 =
        (true, v, l₁.map (fun e => BridgeEvent.lookupCall e.id) ++ [BridgeEvent.lookupCall se.id])) ∧
    ((mScriptBridgeLookupSymbol engines name out0).1 = false →
      (mScriptBridgeLookupSymbol engines name out0).2.1 = out0) := by
  refine ⟨lookupAll_any name engines out0, ?_, lookupAll_none_out name engines out0⟩
  intro l₁ se l₂ v he hnone hv
  subst he
  exact lookupAll_first_success name l₁ se l₂ out0 v hnone hv

/-- Claim C7 witness: three engines of which the second and third both
resolve — the lookup returns the second engine's value 7 and the third
engine (the spy) is never queried. -/
theorem C7_lookup_first_success_witness :
    ((mScriptBridgeLookupSymbol [wEngineA, wEngineB, wEngineC] "g" 0).1 =
      [wEngineA, wEngineB, wEngineC].any fun se => (se.lookupSymbol "g").isSome) ∧
    mScriptBridgeLookupSymbol [wEngineA, wEngineB, wEngineC] "g" 0 =
      (true, 7, [wEngineA].map (fun e => BridgeEvent.lookupCall e.id) ++
        [BridgeEvent.lookupCall wEngineB.id]) :=
  ⟨(C7_lookup_first_success [wEngineA, wEngineB, wEngineC] "g" 0).1,
   (C7_lookup_first_success [wEngineA, wEngineB, wEngineC] "g" 0).2.1 [wEngineA] wEngineB
     [wEngineC] 7 rfl (by intro e he; simp only [List.mem_singleton] at he; subst he; rfl) rfl⟩

/-- Claim C8: `readRange(address, n)` has exactly `n` elements and its
`i`-th element equals the individually translated single-byte read at
offset `address + i`, for every machine, region, address, and `i < n`. -/
theorem C8_readRange_pointwise (adapter : mScriptMemoryAdapter) (address n i : Nat) (h : i < n) :
    (mScriptMemoryAdapterReadRange adapter address n).length = n ∧
    (mScriptMemoryAdapterReadRange adapter address n).getD i 0 =
      mScriptMemoryAdapterRead8 adapter (address + i) := by
  constructor
  · simp [mScriptMemoryAdapterReadRange]
  · have hc := segment_u32_congr adapter.block (u32 address + i) (address + i) (u32_add_mod address i)
    simp [mScriptMemoryAdapterReadRange, mScriptMemoryAdapterRead8,
      List.getD_eq_getElem?_getD, List.getElem?_map, List.getElem?_range h, hc.1, hc.2]

/-- Claim C8 witness: a 4-byte range read beginning just below the bank
boundary of the concrete banked region agrees with the pointwise
`read8`. -/
theorem C8_readRange_pointwise_witness :
    (mScriptMemoryAdapterReadRange wAdapter 8190 4).length = 4 ∧
    (mScriptMemoryAdapterReadRange wAdapter 8190 4).getD 2 0 =
      mScriptMemoryAdapterRead8 wAdapter (8190 + 2) :=
  C8_readRange_pointwise wAdapter 8190 4 2 (by decide)

/-- Claim C9: the default `flags` of `saveStateSlot` selects every
savestate section, and the default `flags` of `loadStateSlot` selects
every section except the save-data section. -/
theorem C9_default_flags :
    saveStateSlotDefaultFlags = savestateSections.foldr or32 0 ∧
    (∀ s ∈ savestateSections, and32 saveStateSlotDefaultFlags s = s) ∧
    (∀ s ∈ savestateSections, s ≠ SAVESTATE_SAVEDATA → and32 loadStateSlotDefaultFlags s = s) ∧
    and32 loadStateSlotDefaultFlags SAVESTATE_SAVEDATA = 0 := by
  decide

/-- Claim C9 witness: the save default selects the save-data section and
the load default still selects the cheats section. -/
theorem C9_default_flags_witness :
    and32 saveStateSlotDefaultFlags SAVESTATE_SAVEDATA = SAVESTATE_SAVEDATA ∧
    and32 loadStateSlotDefaultFlags SAVESTATE_CHEATS = SAVESTATE_CHEATS :=
  ⟨C9_default_flags.2.1 SAVESTATE_SAVEDATA (by decide),
   C9_default_flags.2.2.1 SAVESTATE_CHEATS (by decide) (by decide)⟩

/-- Claim C10: for every descriptor with `end > start` whose prefix, when
a `segmentStart` is present, is strictly smaller than `end - start`, the
shared divisor `segmentSize` of all region operations is positive, so
the `div` and `mod` of the translation are well defined at every
offset. -/
theorem C10_segment_size_pos (b : mCoreMemoryBlock)
    (h1 : b.start < b.stop) (h2 : b.stop < 4294967296)
    (h4 : b.segmentStart ≠ 0 → prefixSizeOf b < sub32 b.stop b.start) :
    0 < segmentSizeOf b := by
  by_cases hz : b.segmentStart = 0
  · simp only [segmentSizeOf, hz, ne_eq, not_true_eq_false, if_false, sub32, u32]
    omega
  · have := h4 hz
    simp only [segmentSizeOf, hz, ne_eq, not_false_eq_true, if_true, prefixSizeOf, sub32, u32] at *
    omega

/-- Claim C10 witness: the banked example region has a positive segment
size. -/
theorem C10_segment_size_pos_witness : 0 < segmentSizeOf cartBlock :=
  C10_segment_size_pos cartBlock (by decide) (by decide) (fun _ => by decide)

end Scripting
